import Mathlib

/-!
# Verification of `fakeit::MethodMockingContext`

A shallow embedding of `src/include/fakeit/MethodMockingContext.hpp`:
the stubbing binding (`Implementation`), its ownership/commit life cycle,
its matching and history-scanning operations, and the spec-modelled
collaborators (action-sequence dispatch, the default matcher, and the
sequence aggregator) whose sources are not part of this repository slice.
-/

namespace Fakeit

/-- An actual invocation record: method identity plus argument values
(`ActualInvocation` is external; the core only observes it). -/
structure Invocation where
  method : Nat
  args : List Nat
deriving DecidableEq, Repr

/-- The invocation-matcher variants reachable from `MethodMockingContext`:
the default matcher installed by the constructor (line 90) and the
user-defined predicate matcher built by `setMatchingCriteria` (line 229-232).
Modelled from the spec: the concrete matcher classes live in
`ActualInvocation.hpp`, which is not under `src/`; per the spec the default
(match-any) variant is always true and the predicate variant forwards to
the user-supplied function. -/
inductive MatcherKind where
  | Default : MatcherKind
  | UserDefined (predicate : Invocation → Bool) : MatcherKind

/-- `matches` of an invocation matcher. Modelled from the spec:
MatchAny is always true; PredicateMatch forwards to the predicate. -/
def MatcherKind.matches : MatcherKind → Invocation → Bool
  | .Default, _ => true
  | .UserDefined p, inv => p inv

/-- The recorded behaviors (`Action<R, arglist...>` variants); their
payloads are abstracted to identifiers since only identity and order
matter to the binding. -/
inductive Action where
  | Return (v : Nat)
  | Throw (e : Nat)
  | Do (fn : Nat)
  | RepeatForever (method : Nat)
deriving DecidableEq, Repr

/-- The raw-pointer fields of `MethodMockingContext::Implementation`
(lines 78-80): the stubbing context, the recorded action sequence, the
current invocation matcher (each a heap resource, represented by an
allocation identifier), and the `_commited` flag. -/
structure Implementation where
  stubbingContext : Nat
  recordedActionSequence : Nat
  invocationMatcher : Nat
  commited : Bool
deriving DecidableEq, Repr

/-- The observable state of a binding together with its heap effects:
the `Implementation` fields, the contents of the recorded action
sequence object, the registrations performed through
`addMethodInvocationHandler` (each a `(matcher, actionSequence)` pair of
resource ids, in call order), the semantics of the currently installed
matcher, and the list of resource ids released by `delete`, in order. -/
structure World where
  impl : Implementation
  seqActions : List Action
  handlers : List (Nat × Nat)
  matcherKind : MatcherKind
  freed : List Nat

/-- The constructor (lines 88-91): stores the context, allocates a fresh
empty `ActionSequence` and a fresh `DefaultInvocationMatcher`, and sets
`_commited` to false. -/
def World.init (ctx seqId matcherId : Nat) : World :=
  { impl := { stubbingContext := ctx, recordedActionSequence := seqId,
              invocationMatcher := matcherId, commited := false },
    seqActions := [], handlers := [], matcherKind := .Default, freed := [] }

/-- The destructor (lines 93-100): deletes the stubbing context, and —
only when `_commited` is false — also deletes the recorded action
sequence and the invocation matcher. -/
def World.destruct (w : World) : World :=
  { w with freed := w.freed ++ [w.impl.stubbingContext] ++
      (if w.impl.commited then [] else
        [w.impl.recordedActionSequence, w.impl.invocationMatcher]) }

/-- `commit` (lines 134-137): registers the current
`(matcher, actionSequence)` pair with the owning method context and sets
`_commited`. No flag check precedes the registration. -/
def World.commit (w : World) : World :=
  { w with
    handlers := w.handlers ++
      [(w.impl.invocationMatcher, w.impl.recordedActionSequence)],
    impl := { w.impl with commited := true } }

/-- `appendAction` (lines 139-141): appends the action to the recorded
action sequence (`AppendDo`). No committed check is performed. -/
def World.appendAction (w : World) (a : Action) : World :=
  { w with seqActions := w.seqActions ++ [a] }

/-- `setInvocationMatcher` (lines 160-163): deletes the previous matcher
and stores the new one (whose semantics is `k` and whose allocation id
is `m`). No committed check is performed. -/
def World.setInvocationMatcher (w : World) (m : Nat) (k : MatcherKind) :
    World :=
  { w with freed := w.freed ++ [w.impl.invocationMatcher],
           impl := { w.impl with invocationMatcher := m },
           matcherKind := k }

/-- `setMethodBodyByAssignment` (lines 143-146): appends
`new RepeatForever(method)` and immediately commits. -/
def World.setMethodBodyByAssignment (w : World) (method : Nat) : World :=
  (w.appendAction (Action.RepeatForever method)).commit

/-- `MockingContext::operator=` with a function (lines 320-322): forwards
to `setMethodBodyByAssignment`. -/
def World.operatorAssign (w : World) (method : Nat) : World :=
  w.setMethodBodyByAssignment method

/-- `appendAction` viewed through a fallible signature: the source body
(lines 139-141) has no failure path, so the result is always `ok`. -/
def World.appendActionE (w : World) (a : Action) : Except Unit World :=
  .ok (w.appendAction a)

/-- `setInvocationMatcher` viewed through a fallible signature: the
source body (lines 160-163) has no failure path, so the result is always
`ok`. -/
def World.setInvocationMatcherE (w : World) (m : Nat) (k : MatcherKind) :
    Except Unit World :=
  .ok (w.setInvocationMatcher m k)

/-- `Implementation::matches` (lines 124-132): if the invocation's method
is not the binding's own method (`isOfMethod` false) it returns false;
otherwise it delegates to the active invocation matcher. `isOfMethod` is
the externally supplied method-identity test of the stubbing context. -/
def implMatches (isOfMethod : Nat → Bool) (k : MatcherKind)
    (inv : Invocation) : Bool :=
  if !(isOfMethod inv.method) then false
  else k.matches inv

/-- `std::unordered_set::insert`: adds the element only when it is not
already present. -/
def usetInsert (x : Invocation) (s : List Invocation) : List Invocation :=
  if x ∈ s then s else s ++ [x]

/-- `Implementation::getActualInvocations` (lines 112-119): scans the
owning method's full call history (supplied externally through
`scanActualInvocations`) and inserts into the destination set every
record accepted by the active invocation matcher. -/
def getActualInvocations (k : MatcherKind) (history : List Invocation)
    (into : List Invocation) : List Invocation :=
  history.foldl (fun s a => if k.matches a then usetInsert a s else s) into

/-- One dispatch step of the action sequence. Modelled from the spec:
the dispatch policy lives in `ActionSequence.hpp`, which is not under
`src/`; per the spec, each matched call pops the front action unless
only one action remains, in which case it is executed but not removed
(sticky terminal behavior). -/
def dispatchStep : List Action → List Action
  | [] => []
  | [a] => [a]
  | _ :: rest => rest

/-- The action executed by a dispatch step: the front of the sequence. -/
def dispatchedAction : List Action → Option Action
  | [] => none
  | a :: _ => some a

/-- The action dispatched on the k-th matched call (1-indexed): the
front of the sequence after k-1 dispatch steps. -/
def nthDispatched (seq : List Action) (k : Nat) : Option Action :=
  dispatchedAction (dispatchStep^[k - 1] seq)

/-- An expectation usable by `Verify`: either a single stubbing binding
(a `MethodMockingContext`, identified by its this-pointer `bindingId`
and targeting mock `mockId`), or — modelled from the spec, since the
chain aggregator of `Sequence.hpp` is not under `src/` — an ordered
aggregation of two expectations. -/
inductive Expectation where
  | single (bindingId mockId : Nat) : Expectation
  | chain (l r : Expectation) : Expectation

/-- `size` (lines 186-188): a single binding reports 1. Modelled from
the spec for the chain case: a chain reports the sum of its members. -/
def Expectation.size : Expectation → Nat
  | .single _ _ => 1
  | .chain l r => l.size + r.size

/-- `getExpectedSequence` (lines 197-201): a single binding pushes
itself (as `Invocation::Matcher*`) onto the destination vector.
Modelled from the spec for the chain case: members append in
declaration order. -/
def Expectation.getExpectedSequence : Expectation → List Nat → List Nat
  | .single b _, into => into ++ [b]
  | .chain l r, into => r.getExpectedSequence (l.getExpectedSequence into)

/-- Follows the spec's words, for comparison with the source
translation: assignment-style stubbing is sugar for
`append(RepeatForever(someFunction)); commit()`. -/
def assignmentSpec (w : World) (method : Nat) : World :=
  (w.appendAction (Action.RepeatForever method)).commit

theorem usetInsert_nodup (x : Invocation) (s : List Invocation)
    (h : s.Nodup) : (usetInsert x s).Nodup := by
  unfold usetInsert
  split
  · exact h
  · next hx =>
    simp [List.nodup_append, h, List.disjoint_singleton, hx]

theorem mem_usetInsert (x y : Invocation) (s : List Invocation)
    (h : y ∈ usetInsert x s) : y ∈ s ∨ y = x := by
  unfold usetInsert at h
  split at h
  · exact .inl h
  · rcases List.mem_append.mp h with h1 | h1
    · exact .inl h1
    · exact .inr (by simpa using h1)

theorem dispatchedAction_eq_head (l : List Action) :
    dispatchedAction l = l.head? := by
  cases l <;> rfl

theorem head_drop (l : List Action) (i : Nat) : (l.drop i).head? = l[i]? := by
  induction l generalizing i with
  | nil => simp
  | cons a rest ih =>
    cases i with
    | zero => simp
    | succ n => simp

theorem dispatchStep_iterate (j : Nat) (seq : List Action) (h : seq ≠ []) :
    dispatchStep^[j] seq = seq.drop (min j (seq.length - 1)) := by
  induction j generalizing seq with
  | zero => simp
  | succ n ih =>
    match seq with
    | [a] =>
      rw [Function.iterate_succ_apply]
      have hstep : dispatchStep [a] = [a] := rfl
      rw [hstep, ih [a] (by simp)]
      simp
    | a :: b :: rest =>
      rw [Function.iterate_succ_apply]
      have hstep : dispatchStep (a :: b :: rest) = b :: rest := rfl
      rw [hstep, ih (b :: rest) (by simp)]
      have hmin : min (n + 1) (rest.length + 1) = min n rest.length + 1 :=
        Nat.succ_min_succ n rest.length
      simp only [List.length_cons, Nat.add_sub_cancel, hmin,
        List.drop_succ_cons]

/-- C2: destroying a binding after `commit()` releases only the stubbing
context — the installed invocation matcher and action sequence survive —
while destroying a never-committed binding (one whose `_commited` flag is
still false) releases the context, the action sequence and the matcher. -/
theorem commit_controls_destructor_release (w : World) :
    ((w.commit).destruct).freed =
      (w.commit).freed ++ [w.impl.stubbingContext] ∧
    (w.impl.commited = false →
      w.destruct.freed = w.freed ++ [w.impl.stubbingContext,
        w.impl.recordedActionSequence, w.impl.invocationMatcher]) := by
  constructor
  · simp [World.commit, World.destruct]
  · intro h
    simp [World.destruct, h]

/-- Witness for `commit_controls_destructor_release` at the fresh binding
with context 0, action sequence 1 and matcher 2: destruction without
commit frees all three resources. -/
theorem commit_controls_destructor_release_witness :
    (World.init 0 1 2).destruct.freed = [0, 1, 2] := by
  simpa using
    (commit_controls_destructor_release (World.init 0 1 2)).2 rfl

/-- C3 counterexample: the claim says double `commit()` registers the
`(matcher, actionSequence)` pair with the method context only once; on
the fresh binding with context 0, sequence 1 and matcher 2, calling
`commit()` twice produces two registrations, not one — `commit` never
consults the `_commited` flag before registering. -/
theorem double_commit_registers_twice :
    ¬((((World.init 0 1 2).commit).commit).handlers.length = 1) := by
  decide

/-- C3 amended: each `commit()` call registers the pair again — two
commits yield two identical registrations — and the `_commited` flag
only protects the destructor: destroying a double-committed binding
still frees the stubbing context alone, so no double free occurs. -/
theorem double_commit_registers_per_call (w : World) :
    (((w.commit).commit).handlers = w.handlers ++
      [(w.impl.invocationMatcher, w.impl.recordedActionSequence),
       (w.impl.invocationMatcher, w.impl.recordedActionSequence)]) ∧
    ((((w.commit).commit).destruct).freed =
      ((w.commit).commit).freed ++ [w.impl.stubbingContext]) := by
  constructor
  · simp [World.commit]
  · simp [World.commit, World.destruct]

/-- C4 counterexample: the claim says appending an action or replacing
the matcher after `commit()` fails immediately as a hard configuration
error; on the committed fresh binding both operations succeed —
`appendAction` silently appends to the already-installed sequence and
`setInvocationMatcher` silently deletes the installed matcher (id 2). -/
theorem post_commit_ops_not_rejected :
    ((((World.init 0 1 2).commit).appendActionE (Action.Return 7)) =
      .ok (((World.init 0 1 2).commit).appendAction (Action.Return 7))) ∧
    ((((World.init 0 1 2).commit).appendAction (Action.Return 7)).seqActions
      = [Action.Return 7]) ∧
    ((((World.init 0 1 2).commit).setInvocationMatcherE 5 .Default) =
      .ok (((World.init 0 1 2).commit).setInvocationMatcher 5 .Default)) ∧
    ((((World.init 0 1 2).commit).setInvocationMatcher 5 .Default).freed
      = [2]) := by
  exact ⟨rfl, rfl, rfl, rfl⟩

/-- C4 amended: neither `appendAction` nor `setInvocationMatcher`
consults the committed flag or has a failure path: both always succeed;
after commit, `appendAction` mutates the action sequence that was
registered with the dispatch table, and `setInvocationMatcher` deletes
the matcher that the registered handler still references. -/
theorem post_commit_ops_silently_accepted (w : World) (a : Action)
    (m : Nat) (k : MatcherKind) :
    (w.appendActionE a = .ok (w.appendAction a)) ∧
    (w.setInvocationMatcherE m k = .ok (w.setInvocationMatcher m k)) ∧
    (((w.commit).appendAction a).seqActions = w.seqActions ++ [a]) ∧
    (((w.commit).setInvocationMatcher m k).freed =
      w.freed ++ [w.impl.invocationMatcher]) ∧
    ((w.impl.invocationMatcher, w.impl.recordedActionSequence) ∈
      ((w.commit).setInvocationMatcher m k).handlers) := by
  refine ⟨rfl, rfl, rfl, rfl, ?_⟩
  simp [World.commit, World.setInvocationMatcher]

/-- C6: `operator=` with a function is exactly
`appendAction(RepeatForever(method)); commit()`: the resulting state
equals the two-step composition, with one sticky action appended, the
binding committed, and the handler pair installed immediately. -/
theorem assignment_equals_append_commit (w : World) (f : Nat) :
    (w.operatorAssign f = assignmentSpec w f) ∧
    ((w.operatorAssign f).seqActions =
      w.seqActions ++ [Action.RepeatForever f]) ∧
    ((w.operatorAssign f).impl.commited = true) ∧
    ((w.operatorAssign f).handlers = w.handlers ++
      [(w.impl.invocationMatcher, w.impl.recordedActionSequence)]) := by
  exact ⟨rfl, rfl, rfl, rfl⟩

/-- C7: `setInvocationMatcher` releases exactly the one previously
active matcher (the freed list grows by exactly that id), installs
exactly the one new matcher, and — provided no resource was freed twice
before and the active matcher was never freed — frees nothing twice. -/
theorem setInvocationMatcher_exclusive (w : World) (m : Nat)
    (k : MatcherKind)
    (h : (w.freed ++ [w.impl.invocationMatcher]).Nodup) :
    ((w.setInvocationMatcher m k).freed =
      w.freed ++ [w.impl.invocationMatcher]) ∧
    ((w.setInvocationMatcher m k).impl.invocationMatcher = m) ∧
    ((w.setInvocationMatcher m k).freed.Nodup) := by
  exact ⟨rfl, rfl, h⟩

/-- Witness for `setInvocationMatcher_exclusive` on the fresh binding
with matcher 2, replaced by matcher 5: exactly matcher 2 is freed. -/
theorem setInvocationMatcher_exclusive_witness :
    ((World.init 0 1 2).setInvocationMatcher 5 .Default).freed = [2] := by
  simpa using
    (setInvocationMatcher_exclusive (World.init 0 1 2) 5 .Default
      (by decide)).1

/-- C8: a single binding reports `size() = 1` and
`getExpectedSequence` appends exactly the binding itself; a chain of
two single bindings reports size 2 and an expected sequence of length 2
in declaration order, whatever mocks the two bindings target. -/
theorem size_and_expected_sequence (b1 b2 mock1 mock2 : Nat)
    (into : List Nat) :
    ((Expectation.single b1 mock1).size = 1) ∧
    ((Expectation.single b1 mock1).getExpectedSequence into =
      into ++ [b1]) ∧
    ((Expectation.chain (.single b1 mock1) (.single b2 mock2)).size
      = 2) ∧
    ((Expectation.chain (.single b1 mock1)
        (.single b2 mock2)).getExpectedSequence into
      = into ++ [b1, b2]) := by
  refine ⟨rfl, rfl, rfl, ?_⟩
  simp [Expectation.getExpectedSequence]

/-- C1: for an action sequence `[a1,...,an]` with `n ≥ 1`, the k-th
matched call (1-indexed) dispatches `a_min(k,n)` — so every call beyond
the n-th dispatches `a_n` — and the sequence is never exhausted: the
terminal action is executed but never removed. -/
theorem nthDispatched_sticky (seq : List Action) (k : Nat)
    (hseq : 1 ≤ seq.length) (hk : 1 ≤ k) :
    nthDispatched seq k = seq[min k seq.length - 1]? ∧
    dispatchStep^[k - 1] seq ≠ [] := by
  have hne : seq ≠ [] := by
    intro hcon
    rw [hcon] at hseq
    simp at hseq
  constructor
  · unfold nthDispatched
    rw [dispatchStep_iterate (k - 1) seq hne, dispatchedAction_eq_head,
      head_drop]
    congr 1
    omega
  · rw [dispatchStep_iterate (k - 1) seq hne]
    have hlen : (seq.drop (min (k - 1) (seq.length - 1))).length =
        seq.length - min (k - 1) (seq.length - 1) := by
      simp
    have hpos : 0 < (seq.drop (min (k - 1) (seq.length - 1))).length := by
      omega
    exact List.length_pos.mp hpos

/-- Witness for `nthDispatched_sticky` on `[Return 1, Return 2]`: the
fifth call still dispatches `Return 2`. -/
theorem nthDispatched_sticky_witness :
    nthDispatched [Action.Return 1, Action.Return 2] 5 =
      some (Action.Return 2) := by
  simpa using
    (nthDispatched_sticky [Action.Return 1, Action.Return 2] 5
      (by decide) (by decide)).1

/-- C5: `getActualInvocations` fills the destination set without
duplicates, and every record it adds beyond those already present was
accepted by the active invocation matcher. -/
theorem getActualInvocations_nodup_matched (k : MatcherKind)
    (history into : List Invocation) (h : into.Nodup) :
    (getActualInvocations k history into).Nodup ∧
    ∀ x ∈ getActualInvocations k history into,
      x ∈ into ∨ k.matches x = true := by
  induction history generalizing into with
  | nil => exact ⟨h, fun x hx => .inl hx⟩
  | cons a rest ih =>
    have hn : (if k.matches a then usetInsert a into else into).Nodup := by
      split
      · exact usetInsert_nodup a into h
      · exact h
    obtain ⟨h1, h2⟩ :=
      ih (if k.matches a then usetInsert a into else into) hn
    have hfold : getActualInvocations k (a :: rest) into =
        getActualInvocations k rest
          (if k.matches a then usetInsert a into else into) := rfl
    rw [hfold]
    refine ⟨h1, fun x hx => ?_⟩
    rcases h2 x hx with hin | hm
    · by_cases hma : k.matches a = true
      · rw [if_pos hma] at hin
        rcases mem_usetInsert a x into hin with h3 | h3
        · exact .inl h3
        · exact .inr (h3 ▸ hma)
      · rw [if_neg hma] at hin
        exact .inl hin
    · exact .inr hm

/-- Witness for `getActualInvocations_nodup_matched`: scanning a history
holding the same record twice, with an empty destination, still yields a
duplicate-free set. -/
theorem getActualInvocations_nodup_matched_witness :
    (getActualInvocations
      (.UserDefined (fun inv => inv.method == 0))
      [⟨0, [1]⟩, ⟨0, [1]⟩, ⟨1, []⟩] []).Nodup := by
  exact (getActualInvocations_nodup_matched
    (.UserDefined (fun inv => inv.method == 0))
    [⟨0, [1]⟩, ⟨0, [1]⟩, ⟨1, []⟩] [] List.nodup_nil).1

/-- C9: when the invocation's method is not the binding's own method,
`matches` is false whatever the active matcher is (the matcher is never
consulted); when it is the binding's own method, `matches` is exactly
the active matcher's verdict. -/
theorem matches_checks_method_first (isOfMethod : Nat → Bool)
    (k j : MatcherKind) (inv : Invocation) :
    (isOfMethod inv.method = false →
      implMatches isOfMethod k inv = false ∧
      implMatches isOfMethod k inv = implMatches isOfMethod j inv) ∧
    (isOfMethod inv.method = true →
      implMatches isOfMethod k inv = k.matches inv) := by
  constructor
  · intro h
    constructor <;> simp [implMatches, h]
  · intro h
    simp [implMatches, h]

/-- Witness for `matches_checks_method_first` with the identity test
"method id equals 1": an invocation of method 0 never matches, an
invocation of method 1 passes through to the (default) matcher. -/
theorem matches_checks_method_first_witness :
    implMatches (fun m => m == 1) MatcherKind.Default ⟨0, []⟩ = false ∧
    implMatches (fun m => m == 1) MatcherKind.Default ⟨1, []⟩ = true := by
  refine ⟨?_, ?_⟩
  · exact ((matches_checks_method_first (fun m => m == 1) .Default
      (.UserDefined fun _ => true) ⟨0, []⟩).1 rfl).1
  · have h := (matches_checks_method_first (fun m => m == 1) .Default
      (.UserDefined fun _ => true) ⟨1, []⟩).2 rfl
    simpa [MatcherKind.matches] using h

/-- C10: a freshly constructed binding carries the default match-any
matcher, an allocated empty action sequence, and matches every
invocation of its own method before any matching criteria are set. -/
theorem fresh_binding_matches_all (ctx seqId matcherId : Nat)
    (isOfMethod : Nat → Bool) (inv : Invocation)
    (h : isOfMethod inv.method = true) :
    ((World.init ctx seqId matcherId).matcherKind =
      MatcherKind.Default) ∧
    ((World.init ctx seqId matcherId).seqActions = []) ∧
    ((World.init ctx seqId matcherId).impl.recordedActionSequence
      = seqId) ∧
    (implMatches isOfMethod
      (World.init ctx seqId matcherId).matcherKind inv = true) := by
  refine ⟨rfl, rfl, rfl, ?_⟩
  simp [implMatches, h, World.init, MatcherKind.matches]

/-- Witness for `fresh_binding_matches_all`: the fresh binding matches a
concrete invocation of its own method. -/
theorem fresh_binding_matches_all_witness :
    implMatches (fun _ => true)
      (World.init 0 1 2).matcherKind ⟨3, [4, 5]⟩ = true := by
  exact (fresh_binding_matches_all 0 1 2 (fun _ => true)
    ⟨3, [4, 5]⟩ rfl).2.2.2

end Fakeit
